import Mathlib

/-!
Verification of the serial device-detection and upload module
(src/js/usb-detector.js, classes USBDetector and USBStatusMonitor).

The JavaScript methods are shallowly embedded as pure Lean functions:
strings are Lean strings (operated on through their character lists),
device and stream behaviour that lives outside the module (probe
responses, thrown stream errors, timeouts) is passed in as explicit
outcome values, and instance-field mutation is modelled as explicit
state passing.  Each definition mirrors the corresponding source
method; literal brace characters inside string literals are written
with hexadecimal escapes.
-/

set_option autoImplicit false

/-! ### Character-list string primitives

JavaScript String.prototype.includes is modelled on character lists:
a position-wise prefix test and a scan over all start positions. -/

/-- Boolean test that the first character list is a prefix of the second. -/
def isPref : List Char → List Char → Bool
  | [], _ => true
  | _ :: _, [] => false
  | a :: as, b :: bs => a == b && isPref as bs

/-- Boolean test that the pattern occurs contiguously inside the text;
this is the semantics of JavaScript String.prototype.includes. -/
def occursIn (pat : List Char) : List Char → Bool
  | [] => pat.isEmpty
  | c :: cs => isPref pat (c :: cs) || occursIn pat cs

/-- JavaScript s.includes(pat). -/
def jsIncludes (s pat : String) : Bool := occursIn pat.toList s.toList

theorem toList_append (a b : String) : (a ++ b).toList = a.toList ++ b.toList := by
  cases a; cases b; rfl

theorem isPref_extend (p : List Char) : ∀ s r : List Char,
    isPref p s = true → isPref p (s ++ r) = true := by
  induction p with
  | nil => intro s r _; simp [isPref]
  | cons a as ih =>
    intro s r h
    cases s with
    | nil => simp [isPref] at h
    | cons b bs =>
      simp only [isPref, Bool.and_eq_true] at h
      simp only [List.cons_append, isPref, Bool.and_eq_true]
      exact ⟨h.1, ih bs r h.2⟩

theorem isPref_self_append (p r : List Char) : isPref p (p ++ r) = true := by
  induction p with
  | nil => simp [isPref]
  | cons a as ih => simp [isPref, ih]

theorem occursIn_nil_pat (t : List Char) : occursIn [] t = true := by
  cases t <;> simp [occursIn, isPref]

theorem occursIn_append_left (p : List Char) : ∀ xs ys : List Char,
    occursIn p xs = true → occursIn p (xs ++ ys) = true := by
  intro xs
  induction xs with
  | nil =>
    intro ys h
    simp only [occursIn, List.isEmpty_iff] at h
    subst h
    exact occursIn_nil_pat ys
  | cons c cs ih =>
    intro ys h
    simp only [occursIn, Bool.or_eq_true] at h
    rcases h with h | h
    · simp only [List.cons_append, occursIn, Bool.or_eq_true]
      exact Or.inl (isPref_extend p (c :: cs) ys h)
    · simp only [List.cons_append, occursIn, Bool.or_eq_true]
      exact Or.inr (ih ys h)

theorem occursIn_append_right (p : List Char) : ∀ xs ys : List Char,
    occursIn p ys = true → occursIn p (xs ++ ys) = true := by
  intro xs
  induction xs with
  | nil => intro ys h; simpa using h
  | cons c cs ih =>
    intro ys h
    simp only [List.cons_append, occursIn, Bool.or_eq_true]
    exact Or.inr (ih ys h)

theorem occursIn_self_append (p ys : List Char) : occursIn p (p ++ ys) = true := by
  cases p with
  | nil => exact occursIn_nil_pat ys
  | cons a as =>
    have h := isPref_self_append (a :: as) ys
    simp only [List.cons_append] at h
    simp only [List.cons_append, occursIn, Bool.or_eq_true]
    exact Or.inl h

/-! ### Upload wrapping (wrapCodeForUpload) -/

/-- wrapCodeForUpload from src/js/usb-detector.js: code already containing
both entry-point markers is returned unchanged, otherwise it is
interpolated into the fixed sketch template.  The libraries field of the
options object is absent or a string; the source expression
options.libraries with a fallback to the empty string is modelled by
Option.getD. -/
def wrapCodeForUpload (code : String) (libraries : Option String) : String :=
  if jsIncludes code "void setup()" && jsIncludes code "void loop()" then
    code
  else
    "// Uploaded by VitaCoder Pro\n" ++ libraries.getD "" ++
      "\n\nvoid setup() \x7b\n    Serial.begin(9600);\n    " ++ code ++
      "\n\x7d\n\nvoid loop() \x7b\n    // Your code runs here\n\x7d"

theorem wrapped_contains_markers (code : String) (libraries : Option String)
    (h : (jsIncludes code "void setup()" && jsIncludes code "void loop()") = false) :
    jsIncludes (wrapCodeForUpload code libraries) "void setup()" = true ∧
      jsIncludes (wrapCodeForUpload code libraries) "void loop()" = true := by
  rw [wrapCodeForUpload, if_neg (by simp [h])]
  unfold jsIncludes
  simp only [toList_append, List.append_assoc]
  constructor
  · apply occursIn_append_right
    apply occursIn_append_right
    apply occursIn_append_left
    decide
  · apply occursIn_append_right
    apply occursIn_append_right
    apply occursIn_append_right
    apply occursIn_append_right
    decide

/-- C2: for every source string and every wrap options value, wrapping is
idempotent: the wrapped output always contains the two entry-point markers,
and marker presence makes a second wrap a pass-through. -/
theorem wrapCodeForUpload_idempotent (source : String) (libraries : Option String) :
    wrapCodeForUpload (wrapCodeForUpload source libraries) libraries =
      wrapCodeForUpload source libraries := by
  by_cases h : (jsIncludes source "void setup()" && jsIncludes source "void loop()") = true
  · have hs : wrapCodeForUpload source libraries = source := by
      rw [wrapCodeForUpload, if_pos h]
    rw [hs, wrapCodeForUpload, if_pos h]
  · have h' : (jsIncludes source "void setup()" && jsIncludes source "void loop()") = false := by
      revert h; cases jsIncludes source "void setup()" && jsIncludes source "void loop()" <;> simp
    obtain ⟨h1, h2⟩ := wrapped_contains_markers source libraries h'
    rw [wrapCodeForUpload, if_pos (by simp [h1, h2])]

/-! ### Device signatures and identification (identifyByUSBInfo,
quickIdentifyPort, fallbackIdentification, identifyModel) -/

/-- The descriptor a serial port reports (port.getInfo()): vendor id,
product id and serial number, each possibly absent (undefined). -/
structure PortInfo where
  usbVendorId : Option Nat
  usbProductId : Option Nat
  usbSerialNumber : Option String
deriving DecidableEq

/-- One entry of this.arduinoSignatures.products: object key, vendor id,
product id (null is the vendor-only wildcard) and display name. -/
structure SigEntry where
  key : String
  vendor : Nat
  product : Option Nat
  name : String
deriving DecidableEq

/-- this.arduinoSignatures.products, in object-literal insertion order,
which is the order Object.entries reports. -/
def sigProducts : List SigEntry :=
  [⟨"UNO", 0x2341, some 0x0043, "Arduino Uno"⟩,
   ⟨"UNO_R3", 0x2341, some 0x0043, "Arduino Uno R3"⟩,
   ⟨"NANO", 0x2341, some 0x0010, "Arduino Nano"⟩,
   ⟨"NANO_CLONE", 0x1A86, some 0x7523, "Arduino Nano (CH340)"⟩,
   ⟨"MEGA", 0x2341, some 0x0010, "Arduino Mega"⟩,
   ⟨"MEGA2560", 0x2341, some 0x0042, "Arduino Mega 2560"⟩,
   ⟨"LEONARDO", 0x2341, some 0x0036, "Arduino Leonardo"⟩,
   ⟨"ESP32", 0x10C4, some 0xEA60, "ESP32 Dev Module"⟩,
   ⟨"GENERIC", 0x2341, none, "Generic Arduino"⟩]

/-- The scan shared by identifyByUSBInfo and quickIdentifyPort: first table
entry whose vendor id equals the reported one and whose product id is the
wildcard or equals the reported one (strict equality, so an absent reported
id matches nothing). -/
def findSigEntry (vo po : Option Nat) : List SigEntry → Option SigEntry
  | [] => none
  | e :: rest =>
    if vo = some e.vendor ∧ (e.product = none ∨ po = e.product) then some e
    else findSigEntry vo po rest

/-- JavaScript truthiness of a possibly-absent number: undefined and 0 are
falsy. -/
def truthyNum : Option Nat → Bool
  | none => false
  | some n => n != 0

/-- key.toLowerCase(), modelled characterwise (every table key is plain
ASCII). -/
def jsToLower (s : String) : String := ⟨s.toList.map Char.toLower⟩

/-- identifyByUSBInfo: only when both reported ids are truthy is the
signature table scanned; the matching key is returned lowercased. -/
def identifyByUSBInfo (info : PortInfo) : Option String :=
  if truthyNum info.usbVendorId && truthyNum info.usbProductId then
    (findSigEntry info.usbVendorId info.usbProductId sigProducts).map
      (fun e => jsToLower e.key)
  else none

/-- The record quickIdentifyPort builds for a recognized port. -/
structure DeviceInfo where
  id : String
  model : String
  name : String
  vendorId : Option Nat
  productId : Option Nat
  connected : Bool
deriving DecidableEq

/-- Text interpolation of a possibly-absent number, as in the template
literal building the device id. -/
def jsNumText : Option Nat → String
  | none => "undefined"
  | some n => toString n

/-- quickIdentifyPort: the same table scan, with no truthiness guard,
returning a populated device record or null. -/
def quickIdentifyPort (info : PortInfo) : Option DeviceInfo :=
  (findSigEntry info.usbVendorId info.usbProductId sigProducts).map fun e =>
    { id := jsNumText info.usbVendorId ++ "-" ++ jsNumText info.usbProductId
      model := jsToLower e.key
      name := e.name
      vendorId := info.usbVendorId
      productId := info.usbProductId
      connected := false }

/-- fallbackIdentification: vendor id alone mapped to the most common board
for that vendor, with the sentinel generic label otherwise. -/
def fallbackIdentification (info : PortInfo) : String :=
  if info.usbVendorId = some 0x2341 then "uno"
  else if info.usbVendorId = some 0x1A86 then "nano"
  else if info.usbVendorId = some 0x10C4 then "esp32"
  else "generic"

/-- Outcome of awaiting one identification method: the promise rejected
(exception, timeout), or it resolved with null or with a model string.  A
resolved empty string is falsy and is skipped like null by the caller. -/
inductive MethodOutcome where
  | throws : MethodOutcome
  | value : Option String → MethodOutcome
deriving DecidableEq

/-- The method loop inside identifyModel: each method is awaited inside
try/catch, a thrown error is swallowed, a falsy result (null or the empty
string) falls through to the next method, and the first truthy result is
returned. -/
def runMethods : List MethodOutcome → Option String
  | [] => none
  | MethodOutcome.throws :: rest => runMethods rest
  | MethodOutcome.value none :: rest => runMethods rest
  | MethodOutcome.value (some s) :: rest =>
    if s = "" then runMethods rest else some s

/-- identifyModel: throws when no port is selected; otherwise runs the three
identification methods in order — the descriptor match (a pure function of
the port descriptor, computed here), then the command/response probe and the
behavioural probe, whose device-dependent outcomes are passed in — and falls
back to fallbackIdentification when all three fail.  The outer catch that
would return the unknown label is unreachable here because the loop swallows
method errors and the fallback is total. -/
def identifyModel (port : Option PortInfo) (o2 o3 : MethodOutcome) :
    Except String String :=
  match port with
  | none => Except.error "Port not open"
  | some info =>
    match runMethods
        [MethodOutcome.value (identifyByUSBInfo info), o2, o3] with
    | some m => Except.ok m
    | none => Except.ok (fallbackIdentification info)

/-! ### Identification theorems -/

/-- The port descriptor an Arduino Uno reports. -/
def unoPort : PortInfo := ⟨some 0x2341, some 0x0043, none⟩

/-- C5: a port whose descriptor reports vendor 0x2341 and product 0x0043 is
identified as uno by the descriptor-match strategy alone.  The strategy is a
pure function of the descriptor (so it performs no device read or write),
and identifyModel returns uno whatever the outcomes of the two I/O-based
probes, which are never consulted. -/
theorem descriptor_match_identifies_uno (o2 o3 : MethodOutcome) :
    identifyByUSBInfo unoPort = some "uno" ∧
      identifyModel (some unoPort) o2 o3 = Except.ok "uno" := by
  have h : identifyByUSBInfo unoPort = some "uno" := by decide
  refine ⟨h, ?_⟩
  have h2 : runMethods [MethodOutcome.value (identifyByUSBInfo unoPort), o2, o3]
      = some "uno" := by rw [h]; rfl
  simp only [identifyModel, h2]

theorem findSigEntry_key_ne_mega (vo po : Option Nat) :
    (findSigEntry vo po sigProducts).map (fun e => jsToLower e.key) ≠ some "mega" := by
  by_cases hv : vo = some 0x2341
  · subst hv
    by_cases hp : po = some 0x0010
    · subst hp; decide
    · by_cases h43 : po = some 0x0043
      · subst h43; decide
      · by_cases h42 : po = some 0x0042
        · subst h42; decide
        · by_cases h36 : po = some 0x0036
          · subst h36; decide
          · simp [sigProducts, findSigEntry, hp, h43, h42, h36]
            decide
  · by_cases hv2 : vo = some 0x1A86
    · subst hv2
      by_cases hp : po = some 0x7523
      · subst hp; decide
      · simp [sigProducts, findSigEntry, hp]
    · by_cases hv3 : vo = some 0x10C4
      · subst hv3
        by_cases hp : po = some 0xEA60
        · subst hp; decide
        · simp [sigProducts, findSigEntry, hp]
      · simp [sigProducts, findSigEntry, hv, hv2, hv3]

/-- C9 counterexample: a port reporting vendor 0x2341 and product id 0 has a
product id matching no specific table entry, yet identifyByUSBInfo returns
no match at all rather than the generic wildcard label: the truthiness guard
treats the reported 0 as absent and skips the table.  quickIdentifyPort,
which has no such guard, does reach the wildcard for the same descriptor. -/
theorem identifyByUSBInfo_zero_product_no_match :
    identifyByUSBInfo ⟨some 0x2341, some 0, none⟩ = none ∧
      (quickIdentifyPort ⟨some 0x2341, some 0, none⟩).map DeviceInfo.model
        = some "generic" := by
  constructor
  · decide
  · decide

/-- C9 (amended): NANO and MEGA share the identical vendor/product pair
0x2341/0x0010; the table scan returns the first entry in insertion order, so
that pair always identifies as nano and the mega label is unreachable
through descriptor matching (both in identifyByUSBInfo and in
quickIdentifyPort); and a vendor-0x2341 port whose reported product id is
nonzero and matches no specific entry falls through to the GENERIC wildcard
(a zero product id instead makes identifyByUSBInfo skip the table, as the
counterexample records). -/
theorem signature_table_shadowing :
    (identifyByUSBInfo ⟨some 0x2341, some 0x0010, none⟩ = some "nano" ∧
      (quickIdentifyPort ⟨some 0x2341, some 0x0010, none⟩).map DeviceInfo.model
        = some "nano") ∧
    (∀ info : PortInfo, identifyByUSBInfo info ≠ some "mega") ∧
    (∀ info : PortInfo, (quickIdentifyPort info).map DeviceInfo.model ≠ some "mega") ∧
    (∀ p : Nat, p ≠ 0 → ¬ p ∈ [0x0043, 0x0010, 0x0042, 0x0036] →
      identifyByUSBInfo ⟨some 0x2341, some p, none⟩ = some "generic") := by
  refine ⟨⟨by decide, by decide⟩, ?_, ?_, ?_⟩
  · intro info
    unfold identifyByUSBInfo
    by_cases hc : (truthyNum info.usbVendorId && truthyNum info.usbProductId) = true
    · rw [if_pos hc]
      exact findSigEntry_key_ne_mega _ _
    · rw [if_neg hc]
      simp
  · intro info
    unfold quickIdentifyPort
    rw [Option.map_map]
    exact findSigEntry_key_ne_mega _ _
  · intro p hp hmem
    simp only [List.mem_cons, List.not_mem_nil, or_false, not_or] at hmem
    obtain ⟨h43, h10, h42, h36⟩ := hmem
    have ht : (truthyNum (some 0x2341) && truthyNum (some p)) = true := by
      simp [truthyNum, bne_iff_ne, hp]
    unfold identifyByUSBInfo
    dsimp only
    rw [if_pos ht]
    simp only [sigProducts, findSigEntry, Option.some.injEq, h43, h10, h42, h36]
    norm_num
    decide

/-- C9 witness: a vendor-0x2341 port with the nonzero unmatched product id
0x1234 identifies as generic through the wildcard entry. -/
theorem signature_table_shadowing_witness :
    identifyByUSBInfo ⟨some 0x2341, some 0x1234, none⟩ = some "generic" :=
  signature_table_shadowing.2.2.2 0x1234 (by decide) (by decide)

theorem findSigEntry_none_of_unknown_vendor (vo po : Option Nat)
    (h1 : vo ≠ some 0x2341) (h2 : vo ≠ some 0x1A86) (h3 : vo ≠ some 0x10C4) :
    findSigEntry vo po sigProducts = none := by
  simp [sigProducts, findSigEntry, h1, h2, h3]

/-- A method outcome that fails to identify a board: the promise rejected,
or it resolved with null or with the falsy empty string. -/
def failsToIdentify : MethodOutcome → Bool
  | MethodOutcome.throws => true
  | MethodOutcome.value none => true
  | MethodOutcome.value (some s) => s == ""

theorem runMethods_none_of_fails : ∀ outcomes : List MethodOutcome,
    (∀ o ∈ outcomes, failsToIdentify o = true) → runMethods outcomes = none := by
  intro outcomes
  induction outcomes with
  | nil => intro _; rfl
  | cons o rest ih =>
    intro h
    have ho := h o (List.mem_cons_self o rest)
    have hr := ih fun o' ho' => h o' (List.mem_cons_of_mem o ho')
    cases o with
    | throws => simpa [runMethods] using hr
    | value ov =>
      cases ov with
      | none => simpa [runMethods] using hr
      | some s =>
        have hs : s = "" := by simpa [failsToIdentify] using ho
        simp [runMethods, hs, hr]

/-- C1 counterexample: in the port state where no port is selected,
identifyModel throws the port-not-open error instead of returning a string,
whatever the probe outcomes would be, because the null-port guard sits
before the strategy ladder and its catches. -/
theorem identifyModel_throws_without_port :
    identifyModel none MethodOutcome.throws MethodOutcome.throws
      = Except.error "Port not open" := rfl

/-- C1 (amended): once a port is selected, identifyModel never throws: for
every descriptor and every outcome of the two I/O probes (thrown error,
timeout, null or any string) it returns a model string; and when every
strategy fails to identify — both probes fail, and the vendor id is outside
the fallback table so the descriptor scan also finds nothing — the returned
string is generic.  (With no port selected it instead throws, as the
counterexample records.) -/
theorem identifyModel_total_on_open_port (info : PortInfo) (o2 o3 : MethodOutcome) :
    (∃ s, identifyModel (some info) o2 o3 = Except.ok s) ∧
    (failsToIdentify o2 = true → failsToIdentify o3 = true →
      info.usbVendorId ≠ some 0x2341 → info.usbVendorId ≠ some 0x1A86 →
      info.usbVendorId ≠ some 0x10C4 →
      identifyModel (some info) o2 o3 = Except.ok "generic") := by
  constructor
  · cases hr : runMethods [MethodOutcome.value (identifyByUSBInfo info), o2, o3] with
    | some m => exact ⟨m, by simp [identifyModel, hr]⟩
    | none => exact ⟨fallbackIdentification info, by simp [identifyModel, hr]⟩
  · intro h2 h3 hv1 hv2 hv3
    have husb : identifyByUSBInfo info = none := by
      unfold identifyByUSBInfo
      rw [findSigEntry_none_of_unknown_vendor info.usbVendorId info.usbProductId
        hv1 hv2 hv3]
      simp
    have hrm : runMethods [MethodOutcome.value (identifyByUSBInfo info), o2, o3]
        = none := by
      apply runMethods_none_of_fails
      intro o ho
      simp only [List.mem_cons, List.not_mem_nil, or_false] at ho
      rcases ho with rfl | rfl | rfl
      · rw [husb]; rfl
      · exact h2
      · exact h3
    have hfb : fallbackIdentification info = "generic" := by
      unfold fallbackIdentification
      rw [if_neg hv1, if_neg hv2, if_neg hv3]
    simp [identifyModel, hrm, hfb]

/-- C1 witness: a port reporting an FTDI vendor id, with both probes
failing, degrades to the generic label without throwing. -/
theorem identifyModel_total_on_open_port_witness :
    identifyModel (some ⟨some 0x0403, some 0x6001, none⟩)
      MethodOutcome.throws (MethodOutcome.value none) = Except.ok "generic" :=
  (identifyModel_total_on_open_port ⟨some 0x0403, some 0x6001, none⟩
      MethodOutcome.throws (MethodOutcome.value none)).2
    rfl rfl (by decide) (by decide) (by decide)

/-! ### Baud-rate detection (detectBaudRate) -/

/-- Outcome of one baud-rate attempt, which closes the port, reopens it at
the candidate rate and awaits the probe command: either some step throws
(close or open failure, stream error, the 500 ms timeout), or the probe
resolves with the trimmed response text, which may be empty. -/
inductive BaudOutcome where
  | throws : BaudOutcome
  | responds : String → BaudOutcome
deriving DecidableEq

/-- The fixed candidate list, in source order. -/
def commonBaudRates : List Nat := [9600, 115200, 57600, 38400, 19200, 14400]

/-- The for-of loop of detectBaudRate: a thrown attempt is swallowed and the
next rate is tried; an attempt whose probe resolves — with any response —
returns that rate at once. -/
def detectBaudRateGo (behavior : Nat → BaudOutcome) : List Nat → Option Nat
  | [] => none
  | b :: rest =>
    match behavior b with
    | BaudOutcome.throws => detectBaudRateGo behavior rest
    | BaudOutcome.responds _ => some b

/-- detectBaudRate from src/js/usb-detector.js, over the device behaviour at
each candidate rate. -/
def detectBaudRate (behavior : Nat → BaudOutcome) : Option Nat :=
  detectBaudRateGo behavior commonBaudRates

/-- Whether the probe at a rate completes without throwing. -/
def probeResolves (behavior : Nat → BaudOutcome) (b : Nat) : Bool :=
  match behavior b with
  | BaudOutcome.throws => false
  | BaudOutcome.responds _ => true

/-- Modelled from the claim wording, not from the source: the first
candidate rate producing a non-empty response.  Kept only to compare the
claim against the code. -/
def detectBaudRateClaimed (behavior : Nat → BaudOutcome) : Option Nat :=
  commonBaudRates.find? fun b =>
    match behavior b with
    | BaudOutcome.throws => false
    | BaudOutcome.responds s => !(s == "")

/-- A device that at 9600 baud resolves the probe with an empty response and
times out at every other rate. -/
def emptyProbeBehavior : Nat → BaudOutcome := fun b =>
  if b == 9600 then BaudOutcome.responds "" else BaudOutcome.throws

/-- C4 counterexample: against emptyProbeBehavior no candidate rate produces
a non-empty response, so the claim requires null; the code nevertheless
returns 9600, because it accepts any resolving probe without inspecting the
response text. -/
theorem detectBaudRate_accepts_empty_response :
    detectBaudRate emptyProbeBehavior = some 9600 ∧
      emptyProbeBehavior 9600 = BaudOutcome.responds "" ∧
      detectBaudRateClaimed emptyProbeBehavior = none :=
  ⟨rfl, rfl, rfl⟩

theorem detectBaudRateGo_eq_find (behavior : Nat → BaudOutcome) :
    ∀ l : List Nat,
      detectBaudRateGo behavior l = l.find? (probeResolves behavior) := by
  intro l
  induction l with
  | nil => rfl
  | cons b rest ih =>
    cases hb : behavior b <;>
      simp [detectBaudRateGo, List.find?_cons, probeResolves, hb, ih]

/-- C4 (amended): detectBaudRate scans the fixed candidate list
[9600, 115200, 57600, 38400, 19200, 14400] in that order and returns the
first rate whose probe completes without throwing — whether or not its
response is empty — and null when every candidate throws or times out. -/
theorem detectBaudRate_first_resolving (behavior : Nat → BaudOutcome) :
    detectBaudRate behavior = commonBaudRates.find? (probeResolves behavior) :=
  detectBaudRateGo_eq_find behavior commonBaudRates

/-! ### Chunked upload (chunkString, sendCodeChunked, uploadCode) -/

/-- The loop of chunkString on the character list: take chunkSize characters
and continue past them (the index advances by chunkSize each iteration).
With chunk size 0 the source loop would never terminate on nonempty input;
the recursion here still consumes one character in that degenerate case,
which no caller exercises — sendCodeChunked always passes 64. -/
def chunkChars (chunkSize : Nat) : List Char → List (List Char)
  | [] => []
  | c :: cs => (c :: cs).take chunkSize :: chunkChars chunkSize (cs.drop (chunkSize - 1))
termination_by l => l.length
decreasing_by
  simp only [List.length_drop, List.length_cons]
  omega

/-- chunkString from src/js/usb-detector.js: successive substrings of the
given size. -/
def chunkString (str : String) (chunkSize : Nat) : List String :=
  (chunkChars chunkSize str.toList).map String.mk

/-- The sequence of chunks sendCodeChunked writes to the port, in order:
the code split into 64-byte chunks. -/
def sendCodeChunked (code : String) : List String := chunkString code 64

/-- In-order concatenation of the written chunks. -/
def joinStrings : List String → String
  | [] => ""
  | s :: rest => s ++ joinStrings rest

theorem chunkChars_join (k : Nat) (hk : 0 < k) (l : List Char) :
    (chunkChars k l).flatten = l := by
  generalize hn : l.length = n
  induction n using Nat.strong_induction_on generalizing l with
  | _ n ih =>
    cases l with
    | nil => simp [chunkChars]
    | cons c cs =>
      rw [chunkChars]
      simp only [List.flatten_cons]
      have hlt : (cs.drop (k - 1)).length < n := by
        simp only [List.length_cons] at hn
        simp only [List.length_drop]
        omega
      rw [ih (cs.drop (k - 1)).length hlt (cs.drop (k - 1)) rfl]
      cases k with
      | zero => omega
      | succ k' =>
        simp only [Nat.succ_sub_one, List.take_succ_cons, List.cons_append]
        rw [List.take_append_drop]

theorem joinStrings_map_mk : ∀ ll : List (List Char),
    joinStrings (ll.map String.mk) = String.mk ll.flatten := by
  intro ll
  induction ll with
  | nil => rfl
  | cons l rest ih =>
    simp only [List.map_cons, joinStrings, List.flatten_cons, ih]
    rfl

theorem chunkString_join (str : String) (k : Nat) (hk : 0 < k) :
    joinStrings (chunkString str k) = str := by
  unfold chunkString
  rw [joinStrings_map_mk, chunkChars_join k hk]
  cases str; rfl

/-! ### Detector state and uploadCode -/

/-- The mutable instance fields of USBDetector that the upload and
disconnect paths touch.  The reader and writer fields hold stream lock
objects or null; only their presence matters here, so they are modelled as
booleans. -/
structure DetectorState where
  port : Option PortInfo
  reader : Bool
  writer : Bool
  isConnected : Bool
  isScanning : Bool
deriving DecidableEq

/-- The state the constructor establishes: every handle null, no
connection, no scan. -/
def freshDetector : DetectorState :=
  { port := none, reader := false, writer := false,
    isConnected := false, isScanning := false }

/-- uploadCode from src/js/usb-detector.js, returning the state after the
call, the result (the thrown not-connected error, or true on success) and
the list of chunks written to the transport, in order.  When the guard
rejects, nothing is written and no field changes; on the successful path
sendCodeChunked acquires a writer (the field keeps the released writer
object afterwards, hence stays non-null) and writes the wrapped code in
64-byte chunks. -/
def uploadCode (st : DetectorState) (code : String) (libraries : Option String) :
    DetectorState × Except String Bool × List String :=
  if !st.isConnected then
    (st, Except.error "No Arduino connected", [])
  else
    ({ st with writer := true }, Except.ok true,
      sendCodeChunked (wrapCodeForUpload code libraries))

/-- C6: calling upload while not connected fails immediately with the
not-connected error, performs zero writes to the transport and leaves the
whole detector state unchanged. -/
theorem uploadCode_requires_connection (st : DetectorState) (code : String)
    (libraries : Option String) (h : st.isConnected = false) :
    uploadCode st code libraries = (st, Except.error "No Arduino connected", []) := by
  simp [uploadCode, h]

/-- C6 witness: uploading on a freshly constructed, disconnected detector
errors out with nothing written and the state intact. -/
theorem uploadCode_requires_connection_witness :
    uploadCode freshDetector "Serial.println(1);" none
      = (freshDetector, Except.error "No Arduino connected", []) :=
  uploadCode_requires_connection freshDetector "Serial.println(1);" none rfl

/-- C3: concatenating, in order, all chunks written during an upload
reconstructs exactly the wrapped source wrapCodeForUpload(source, options),
character for character — nothing duplicated, dropped or reordered. -/
theorem upload_chunks_reconstruct_wrapped_source (st : DetectorState)
    (code : String) (libraries : Option String) (h : st.isConnected = true) :
    joinStrings (uploadCode st code libraries).2.2 = wrapCodeForUpload code libraries := by
  simp only [uploadCode, h, Bool.not_true, Bool.false_eq_true, if_false]
  exact chunkString_join (wrapCodeForUpload code libraries) 64 (by omega)

/-- A detector state with an established connection. -/
def connectedDetector : DetectorState := { freshDetector with isConnected := true }

/-- C3 witness: a concrete upload on a connected detector reassembles to
its wrapped source. -/
theorem upload_chunks_reconstruct_wrapped_source_witness :
    joinStrings (uploadCode connectedDetector "delay(100);" none).2.2
      = wrapCodeForUpload "delay(100);" none :=
  upload_chunks_reconstruct_wrapped_source connectedDetector "delay(100);" none rfl

/-! ### Observer dispatch (notifyConnection, notifyDisconnection,
notifyStatus) and disconnect -/

/-- The status object USBStatusMonitor hands to its observers. -/
structure StatusEvent where
  event : String
  model : Option String
  port : Option PortInfo
  timestamp : String
  message : String

/-- What the per-observer try/catch records for one invocation: nothing on
normal return, the logged error when the callback throws. -/
def callOutcome {α : Type} : Except String α → Option String
  | Except.ok _ => none
  | Except.error e => some e

/-- notifyConnection: the forEach loop over the registered connection
callbacks, invoking each with the model and the port inside try/catch, so a
throwing callback is logged and the loop continues.  The returned list is
the invocation log, one entry per registered callback in registration
order. -/
def notifyConnection (cbs : List (String → Option PortInfo → Except String Unit))
    (model : String) (port : Option PortInfo) : List (Option String) :=
  match cbs with
  | [] => []
  | cb :: rest => callOutcome (cb model port) :: notifyConnection rest model port

/-- notifyDisconnection: the same loop over the disconnection callbacks,
which take no arguments. -/
def notifyDisconnection (cbs : List (Unit → Except String Unit)) :
    List (Option String) :=
  match cbs with
  | [] => []
  | cb :: rest => callOutcome (cb ()) :: notifyDisconnection rest

/-- notifyStatus from USBStatusMonitor: the same loop over the status
callbacks with the status object. -/
def notifyStatus (cbs : List (StatusEvent → Except String Unit))
    (status : StatusEvent) : List (Option String) :=
  match cbs with
  | [] => []
  | cb :: rest => callOutcome (cb status) :: notifyStatus rest status

theorem notifyConnection_eq_map
    (cbs : List (String → Option PortInfo → Except String Unit))
    (model : String) (port : Option PortInfo) :
    notifyConnection cbs model port = cbs.map fun cb => callOutcome (cb model port) := by
  induction cbs with
  | nil => rfl
  | cons cb rest ih => simp [notifyConnection, ih]

theorem notifyDisconnection_eq_map (cbs : List (Unit → Except String Unit)) :
    notifyDisconnection cbs = cbs.map fun cb => callOutcome (cb ()) := by
  induction cbs with
  | nil => rfl
  | cons cb rest ih => simp [notifyDisconnection, ih]

theorem notifyStatus_eq_map (cbs : List (StatusEvent → Except String Unit))
    (status : StatusEvent) :
    notifyStatus cbs status = cbs.map fun cb => callOutcome (cb status) := by
  induction cbs with
  | nil => rfl
  | cons cb rest ih => simp [notifyStatus, ih]

/-- C8: for every list of registered observers and every dispatch —
connection, disconnection or status change — the invocation log is exactly
one recorded outcome per registered callback, in registration order: entry
i is the outcome of invoking callback i once with the dispatched arguments.
In particular a throwing observer only contributes its own error entry and
never prevents any other observer from being invoked. -/
theorem notify_dispatch_reaches_every_observer :
    (∀ (cbs : List (String → Option PortInfo → Except String Unit))
        (model : String) (port : Option PortInfo),
      notifyConnection cbs model port
          = cbs.map (fun cb => callOutcome (cb model port)) ∧
        (notifyConnection cbs model port).length = cbs.length) ∧
    (∀ cbs : List (Unit → Except String Unit),
      notifyDisconnection cbs = cbs.map (fun cb => callOutcome (cb ())) ∧
        (notifyDisconnection cbs).length = cbs.length) ∧
    (∀ (cbs : List (StatusEvent → Except String Unit)) (status : StatusEvent),
      notifyStatus cbs status = cbs.map (fun cb => callOutcome (cb status)) ∧
        (notifyStatus cbs status).length = cbs.length) := by
  refine ⟨fun cbs model port => ⟨notifyConnection_eq_map cbs model port, ?_⟩,
    fun cbs => ⟨notifyDisconnection_eq_map cbs, ?_⟩,
    fun cbs status => ⟨notifyStatus_eq_map cbs status, ?_⟩⟩
  · rw [notifyConnection_eq_map, List.length_map]
  · rw [notifyDisconnection_eq_map, List.length_map]
  · rw [notifyStatus_eq_map, List.length_map]

/-- Outcome of awaiting port.close(): it resolves, or it rejects with an
error — an InvalidStateError when the port was selected via requestPort but
never successfully opened, or a failure of the underlying device.  Only
consulted when a port is actually present. -/
inductive CloseOutcome where
  | closes : CloseOutcome
  | throws : String → CloseOutcome
deriving DecidableEq

/-- disconnect from src/js/usb-detector.js: cancel and null the reader if
present, release and null the writer if present, then — if a port is
present — await port.close(): when the close rejects, the async method
rejects right there, with the port still set, the connected flag untouched
and no observer notified; when it resolves (or no port was present) the
port is nulled, the connected flag cleared and every disconnection observer
notified.  Returns the resulting state and either the thrown close error or
the observer invocation log. -/
def disconnect (st : DetectorState) (closeOutcome : CloseOutcome)
    (disconnectionCallbacks : List (Unit → Except String Unit)) :
    DetectorState × Except String (List (Option String)) :=
  let st1 := if st.reader then { st with reader := false } else st
  let st2 := if st1.writer then { st1 with writer := false } else st1
  if st2.port.isSome then
    match closeOutcome with
    | CloseOutcome.throws e => (st2, Except.error e)
    | CloseOutcome.closes =>
      let st3 := { st2 with port := none }
      let st4 := { st3 with isConnected := false }
      (st4, Except.ok (notifyDisconnection disconnectionCallbacks))
  else
    let st4 := { st2 with isConnected := false }
    (st4, Except.ok (notifyDisconnection disconnectionCallbacks))

/-- A detector holding a port selected by requestPort whose open failed: a
prior state reachable through detectArduino when openPort rejects, from
which port.close() rejects with an InvalidStateError. -/
def selectedUnopenedDetector : DetectorState :=
  { port := some unoPort, reader := false, writer := false,
    isConnected := false, isScanning := false }

/-- C10 counterexample: from the selected-but-never-opened prior state,
port.close() rejects and disconnect rejects with that error, leaving the
port still set and invoking none of the registered disconnection callbacks
— so disconnect neither completes without error from every prior state nor
always notifies its observers. -/
theorem disconnect_rejects_on_close_failure :
    disconnect selectedUnopenedDetector (CloseOutcome.throws "InvalidStateError")
        [fun _ => Except.ok ()]
      = (selectedUnopenedDetector, Except.error "InvalidStateError") ∧
      selectedUnopenedDetector.port = some unoPort :=
  ⟨rfl, rfl⟩

/-- C10 (amended): disconnect always clears the reader and writer first;
whenever port.close() resolves — and likewise from every prior state with
no port selected, where close is never called and its behaviour is
irrelevant, including the freshly constructed detector — it completes
without error, leaves port, reader and writer null and the connected flag
cleared, and invokes every registered disconnection callback exactly once,
even when the detector was already disconnected and even when some
callbacks throw.  But when a port is present and its close() rejects,
disconnect rejects with that error, with the port still set, the connected
flag unchanged and no disconnection callback invoked. -/
theorem disconnect_clears_and_notifies_unless_close_rejects (st : DetectorState)
    (cbs : List (Unit → Except String Unit)) :
    ((disconnect st CloseOutcome.closes cbs).1.port = none ∧
      (disconnect st CloseOutcome.closes cbs).1.reader = false ∧
      (disconnect st CloseOutcome.closes cbs).1.writer = false ∧
      (disconnect st CloseOutcome.closes cbs).1.isConnected = false ∧
      (disconnect st CloseOutcome.closes cbs).2
        = Except.ok (cbs.map fun cb => callOutcome (cb ()))) ∧
    (∀ co : CloseOutcome, st.port = none →
      disconnect st co cbs = disconnect st CloseOutcome.closes cbs) ∧
    (∀ e : String, st.port.isSome = true →
      (disconnect st (CloseOutcome.throws e) cbs).1.port = st.port ∧
        (disconnect st (CloseOutcome.throws e) cbs).1.isConnected = st.isConnected ∧
        (disconnect st (CloseOutcome.throws e) cbs).2 = Except.error e) := by
  obtain ⟨port, reader, writer, isConnected, isScanning⟩ := st
  refine ⟨?_, ?_, ?_⟩
  · unfold disconnect
    cases reader <;> cases writer <;> cases port <;>
      simp [notifyDisconnection_eq_map]
  · intro co h
    simp only at h
    subst h
    unfold disconnect
    cases reader <;> cases writer <;> simp
  · intro e h
    cases port with
    | none => simp at h
    | some p =>
      unfold disconnect
      cases reader <;> cases writer <;> simp

/-- C10 witness: on the fresh all-null detector, with one throwing and one
normal observer registered, the close outcome is irrelevant: a rejecting
close behaves exactly like a resolving one, so disconnect completes and
notifies both observers. -/
theorem disconnect_clears_and_notifies_unless_close_rejects_witness :
    disconnect freshDetector (CloseOutcome.throws "InvalidStateError")
        [fun _ => Except.error "boom", fun _ => Except.ok ()]
      = disconnect freshDetector CloseOutcome.closes
        [fun _ => Except.error "boom", fun _ => Except.ok ()] :=
  (disconnect_clears_and_notifies_unless_close_rejects freshDetector
      [fun _ => Except.error "boom", fun _ => Except.ok ()]).2.1
    (CloseOutcome.throws "InvalidStateError") rfl

/-! ### Marker-based section extraction

To state where the wrap template places its pieces, the text after and
before the first occurrence of a marker is extracted by a scan over start
positions, in the style of an indexOf search. -/

/-- The text strictly after the first occurrence of the marker, or none. -/
def afterMarker (m : List Char) : List Char → Option (List Char)
  | [] => none
  | c :: cs =>
    if isPref m (c :: cs) then some ((c :: cs).drop m.length)
    else afterMarker m cs

/-- The text strictly before the first occurrence of the marker, or none. -/
def beforeMarker (m : List Char) : List Char → Option (List Char)
  | [] => none
  | c :: cs =>
    if isPref m (c :: cs) then some []
    else (beforeMarker m cs).map (c :: ·)

theorem isPref_length_le (p : List Char) : ∀ s, isPref p s = true → p.length ≤ s.length := by
  induction p with
  | nil => intro s _; simp
  | cons a as ih =>
    intro s h
    cases s with
    | nil => simp [isPref] at h
    | cons b bs =>
      simp only [isPref, Bool.and_eq_true] at h
      have := ih bs h.2
      simp only [List.length_cons]
      omega

theorem isPref_append_long (p : List Char) : ∀ s r, p.length ≤ s.length →
    isPref p (s ++ r) = isPref p s := by
  induction p with
  | nil => intro s r _; simp [isPref]
  | cons a as ih =>
    intro s r hlen
    cases s with
    | nil => simp at hlen
    | cons b bs =>
      simp only [List.cons_append, isPref, List.append_eq]
      rw [ih bs r (by simpa using hlen)]

theorem isPref_drop_of_append (s : List Char) : ∀ m r : List Char, s.length ≤ m.length →
    isPref m (s ++ r) = true → isPref (m.drop s.length) r = true := by
  induction s with
  | nil => intro m r _ h; simpa using h
  | cons b bs ih =>
    intro m r hlen h
    cases m with
    | nil => simp at hlen
    | cons a as =>
      simp only [List.cons_append, isPref, Bool.and_eq_true] at h
      have := ih as r (by simpa using hlen) h.2
      simpa using this

theorem prefix_of_prefix (a : List Char) : ∀ b t : List Char, isPref a t = true →
    isPref b t = true → a.length ≤ b.length → isPref a b = true := by
  induction a with
  | nil => intro b t _ _ _; simp [isPref]
  | cons x xs ih =>
    intro b t ha hb hlen
    cases b with
    | nil => simp at hlen
    | cons y ys =>
      cases t with
      | nil => simp [isPref] at ha
      | cons z zs =>
        simp only [isPref, Bool.and_eq_true] at ha hb ⊢
        obtain ⟨hx, ha'⟩ := ha
        obtain ⟨hy, hb'⟩ := hb
        refine ⟨?_, ih ys zs ha' hb' (by simpa using hlen)⟩
        have hx' : x = z := by simpa using hx
        have hy' : y = z := by simpa using hy
        simp [hx', hy']

/-- No nonempty proper suffix-shift of the marker is again a prefix of the
marker; markers with this property cannot match astride the boundary of a
text known to end exactly where the marker starts. -/
def noOverlapB (m : List Char) : Bool :=
  (List.range m.length).all fun k => decide (k = 0) || !(isPref (m.drop k) m)

theorem noOverlap_false (m : List Char) (hov : noOverlapB m = true) (k : Nat)
    (hk0 : 0 < k) (hk : k < m.length) : isPref (m.drop k) m = false := by
  have h := List.all_eq_true.mp hov k (List.mem_range.mpr hk)
  simp only [Bool.or_eq_true, decide_eq_true_eq] at h
  rcases h with h | h
  · omega
  · simpa using h

theorem isPref_no_straddle (m s rest : List Char) (hm : m ≠ [])
    (hov : noOverlapB m = true) (hs : s ≠ []) (h1 : isPref m s = false)
    (hr : isPref m rest = true) : isPref m (s ++ rest) = false := by
  by_cases hlen : m.length ≤ s.length
  · rw [isPref_append_long m s rest hlen, h1]
  · by_contra hcontra
    have h : isPref m (s ++ rest) = true := by
      revert hcontra; cases isPref m (s ++ rest) <;> simp
    have hd : isPref (m.drop s.length) rest = true :=
      isPref_drop_of_append s m rest (by omega) h
    have hp : isPref (m.drop s.length) m = true := by
      refine prefix_of_prefix (m.drop s.length) m rest hd hr ?_
      simp only [List.length_drop]
      omega
    have hslen : 0 < s.length := by
      cases s with
      | nil => exact absurd rfl hs
      | cons _ _ => simp
    have hfalse := noOverlap_false m hov s.length hslen (by omega)
    rw [hfalse] at hp
    exact Bool.false_ne_true hp

theorem afterMarker_skip (m : List Char) (hm : m ≠ []) (hov : noOverlapB m = true) :
    ∀ xs rest : List Char, occursIn m xs = false → isPref m rest = true →
      afterMarker m (xs ++ rest) = some (rest.drop m.length) := by
  intro xs
  induction xs with
  | nil =>
    intro rest _ hr
    cases rest with
    | nil =>
      cases m with
      | nil => exact absurd rfl hm
      | cons a as => simp [isPref] at hr
    | cons r rs =>
      simp only [List.nil_append, afterMarker]
      rw [if_pos hr]
  | cons c cs ih =>
    intro rest h hr
    have h' : (isPref m (c :: cs) || occursIn m cs) = false := h
    have h1 : isPref m (c :: cs) = false := by
      revert h'; cases isPref m (c :: cs) <;> simp
    have h2 : occursIn m cs = false := by
      revert h'; cases occursIn m cs <;> simp
    have hfalse : isPref m (c :: (cs ++ rest)) = false := by
      have := isPref_no_straddle m (c :: cs) rest hm hov (by simp) h1 hr
      simpa using this
    show afterMarker m (c :: (cs ++ rest)) = some (rest.drop m.length)
    simp only [afterMarker]
    rw [if_neg (by simp [hfalse]), ih rest h2 hr]

theorem beforeMarker_skip (m : List Char) (hm : m ≠ []) (hov : noOverlapB m = true) :
    ∀ xs rest : List Char, occursIn m xs = false → isPref m rest = true →
      beforeMarker m (xs ++ rest) = some xs := by
  intro xs
  induction xs with
  | nil =>
    intro rest _ hr
    cases rest with
    | nil =>
      cases m with
      | nil => exact absurd rfl hm
      | cons a as => simp [isPref] at hr
    | cons r rs =>
      simp only [List.nil_append, beforeMarker]
      rw [if_pos hr]
  | cons c cs ih =>
    intro rest h hr
    have h' : (isPref m (c :: cs) || occursIn m cs) = false := h
    have h1 : isPref m (c :: cs) = false := by
      revert h'; cases isPref m (c :: cs) <;> simp
    have h2 : occursIn m cs = false := by
      revert h'; cases occursIn m cs <;> simp
    have hfalse : isPref m (c :: (cs ++ rest)) = false := by
      have := isPref_no_straddle m (c :: cs) rest hm hov (by simp) h1 hr
      simpa using this
    show beforeMarker m (c :: (cs ++ rest)) = some (c :: cs)
    simp only [beforeMarker]
    rw [if_neg (by simp [hfalse]), ih rest h2 hr]
    rfl

theorem isPref_of_append_pref (a b : List Char) : ∀ t, isPref (a ++ b) t = true →
    isPref a t = true := by
  induction a with
  | nil => intro t _; simp [isPref]
  | cons x xs ih =>
    intro t h
    cases t with
    | nil => simp [isPref] at h
    | cons z zs =>
      simp only [List.cons_append, isPref, Bool.and_eq_true] at h ⊢
      exact ⟨h.1, ih zs h.2⟩

theorem occursIn_append_pattern (a b : List Char) : ∀ t, occursIn (a ++ b) t = true →
    occursIn a t = true := by
  intro t
  induction t with
  | nil =>
    intro h
    simp only [occursIn, List.isEmpty_iff, List.append_eq_nil] at h
    simp [occursIn, h.1]
  | cons c cs ih =>
    intro h
    simp only [occursIn, Bool.or_eq_true] at h ⊢
    rcases h with h | h
    · exact Or.inl (isPref_of_append_pref a b _ h)
    · exact Or.inr (ih h)

/-! ### Template sections of the wrap envelope -/

/-- The marker opening the initialization section of the template. -/
def setupOpenM : List Char := String.toList "void setup() \x7b"

/-- The entry-point marker of the repeating execution section. -/
def loopM : List Char := String.toList "void loop()"

/-- The marker opening the body of the repeating execution section. -/
def loopOpenM : List Char := String.toList "void loop() \x7b"

/-- Everything the template emits before the setup marker: the banner
comment and the libraries option. -/
def sketchHeader (libraries : Option String) : String :=
  "// Uploaded by VitaCoder Pro\n" ++ libraries.getD "" ++ "\n\n"

/-- Everything the template emits after the setup marker. -/
def setupTail (source : String) : String :=
  "\n    Serial.begin(9600);\n    " ++ source ++
    "\n\x7d\n\nvoid loop() \x7b\n    // Your code runs here\n\x7d"

/-- The initialization section: what stands between the setup marker and
the loop marker. -/
def initSection (source : String) : String :=
  "\n    Serial.begin(9600);\n    " ++ source ++ "\n\x7d\n\n"

/-- The body of the repeating execution section: a fixed comment and the
closing brace, independent of the uploaded source. -/
def loopBody : String := "\n    // Your code runs here\n\x7d"

theorem wrap_toList_decomposition (source : String) (libraries : Option String)
    (hl : jsIncludes source "void loop()" = false) :
    (wrapCodeForUpload source libraries).toList
      = (sketchHeader libraries).toList ++ (setupOpenM ++ (setupTail source).toList) := by
  rw [wrapCodeForUpload, if_neg (by simp [hl])]
  unfold sketchHeader setupTail setupOpenM
  simp only [toList_append, List.append_assoc]
  have hbig : String.toList "\n\nvoid setup() \x7b\n    Serial.begin(9600);\n    "
      = String.toList "\n\n" ++ (String.toList "void setup() \x7b"
          ++ String.toList "\n    Serial.begin(9600);\n    ") := by decide
  rw [hbig]
  simp only [List.append_assoc]

theorem setupTail_toList_decomposition (source : String) :
    (setupTail source).toList
      = (initSection source).toList ++ (loopOpenM ++ loopBody.toList) := by
  unfold setupTail initSection loopOpenM loopBody
  simp only [toList_append, List.append_assoc]
  have htail : String.toList "\n\x7d\n\nvoid loop() \x7b\n    // Your code runs here\n\x7d"
      = String.toList "\n\x7d\n\n" ++ (String.toList "void loop() \x7b"
          ++ String.toList "\n    // Your code runs here\n\x7d") := by decide
  rw [htail]

theorem loopOpenM_decomposition : loopOpenM = loopM ++ String.toList " \x7b" := by
  decide

/-- C7 counterexample: wrapping the bare statement blink(); puts it in the
initialization section, not the repeating execution section: the text after
the loop-body marker of the wrapped output is the fixed comment and closing
brace, which does not contain the source, while the text after the setup
marker does. -/
theorem wrap_source_not_in_loop_body :
    afterMarker loopOpenM (wrapCodeForUpload "blink();" none).toList
        = some (String.toList "\n    // Your code runs here\n\x7d") ∧
      occursIn (String.toList "blink();")
          (String.toList "\n    // Your code runs here\n\x7d") = false ∧
      occursIn (String.toList "blink();")
          ((afterMarker setupOpenM (wrapCodeForUpload "blink();" none).toList).getD [])
        = true := by
  refine ⟨by decide, by decide, by decide⟩

/-- C7 (amended): for every source lacking the two entry-point markers —
with a libraries option that does not itself introduce a setup marker
before the real one and a source that does not recreate a loop marker
inside the initialization section — the wrap output is the fixed template:
after its setup marker comes the initialization section, which declares the
fixed baud rate Serial.begin(9600); and contains the entire caller source,
and the repeating execution section that follows holds only the constant
comment body, not the source. -/
theorem wrap_places_source_in_setup_section (source : String) (libraries : Option String)
    (hs : jsIncludes source "void setup()" = false)
    (hl : jsIncludes source "void loop()" = false)
    (hheader : occursIn setupOpenM (sketchHeader libraries).toList = false)
    (hinit : occursIn loopM (initSection source).toList = false) :
    afterMarker setupOpenM (wrapCodeForUpload source libraries).toList
        = some (setupTail source).toList ∧
      beforeMarker loopM (setupTail source).toList = some (initSection source).toList ∧
      occursIn (String.toList "Serial.begin(9600);") (initSection source).toList = true ∧
      occursIn source.toList (initSection source).toList = true ∧
      afterMarker loopOpenM (setupTail source).toList = some loopBody.toList := by
  refine ⟨?_, ?_, ?_, ?_, ?_⟩
  · rw [wrap_toList_decomposition source libraries hl]
    rw [afterMarker_skip setupOpenM (by decide) (by decide) _ _ hheader
      (isPref_self_append setupOpenM (setupTail source).toList)]
    rw [List.drop_left]
  · rw [setupTail_toList_decomposition source, loopOpenM_decomposition,
      List.append_assoc]
    exact beforeMarker_skip loopM (by decide) (by decide) _ _ hinit
      (isPref_self_append loopM _)
  · unfold initSection
    simp only [toList_append, List.append_assoc]
    have hsplit : String.toList "\n    Serial.begin(9600);\n    "
        = String.toList "\n    " ++ (String.toList "Serial.begin(9600);"
            ++ String.toList "\n    ") := by decide
    rw [hsplit]
    simp only [List.append_assoc]
    apply occursIn_append_right
    exact occursIn_self_append _ _
  · unfold initSection
    simp only [toList_append, List.append_assoc]
    apply occursIn_append_right
    exact occursIn_self_append _ _
  · have hinit' : occursIn loopOpenM (initSection source).toList = false := by
      by_contra hcon
      have hT : occursIn loopOpenM (initSection source).toList = true := by
        revert hcon; cases occursIn loopOpenM (initSection source).toList <;> simp
      rw [loopOpenM_decomposition] at hT
      have hM := occursIn_append_pattern loopM (String.toList " \x7b") _ hT
      rw [hinit] at hM
      exact Bool.false_ne_true hM
    rw [setupTail_toList_decomposition source]
    rw [afterMarker_skip loopOpenM (by decide) (by decide) _ _ hinit'
      (isPref_self_append loopOpenM loopBody.toList)]
    rw [List.drop_left]

/-- C7 witness: a concrete bare source with no libraries option satisfies
every hypothesis of the amended statement. -/
theorem wrap_places_source_in_setup_section_witness :
    afterMarker setupOpenM (wrapCodeForUpload "digitalWrite(13, HIGH);" none).toList
        = some (setupTail "digitalWrite(13, HIGH);").toList ∧
      beforeMarker loopM (setupTail "digitalWrite(13, HIGH);").toList
        = some (initSection "digitalWrite(13, HIGH);").toList ∧
      occursIn (String.toList "Serial.begin(9600);")
          (initSection "digitalWrite(13, HIGH);").toList = true ∧
      occursIn (String.toList "digitalWrite(13, HIGH);")
          (initSection "digitalWrite(13, HIGH);").toList = true ∧
      afterMarker loopOpenM (setupTail "digitalWrite(13, HIGH);").toList
        = some loopBody.toList :=
  wrap_places_source_in_setup_section "digitalWrite(13, HIGH);" none
    (by decide) (by decide) (by decide) (by decide)
